import Mathlib

/-!
Verification development for the srcFacts streaming XML metrics scanner
(src/srcFacts.cpp).  The scanner's main loop is embedded shallowly: the
input byte stream is a list of read chunks, `std::string_view` becomes a
`List Char` that is consumed from the front, and each iteration of the
`while (true)` loop in `main` is one application of `step`.

Faithfulness notes on C++ semantics that the embedding reproduces:
* positions stored in `int` represent `std::string_view::npos` as `-1`
  (the usual two's-complement truncation of `size_t(-1)`);
* a comparison `intPos == view.size()` or `intPos == view.npos` converts
  the `int` back to `size_t`, so `-1 == size()` is false while
  `-1 == npos` is true;
* `substr(0, n)` clamps the count, so a count of `npos` (or `int -1`
  converted) takes the whole view;
* `remove_prefix(n)` with `n` greater than the view length is undefined
  behaviour; the embedding stops with `StepRes.ub (Ub.drop ..)`;
* `view[i]` with `i ≥ length` and `front()` on an empty view are
  undefined behaviour; the embedding stops with `Ub.idx i len` or
  `Ub.front` (the C++ condition chains short-circuit, and the embedding
  performs the reads in the same order);
* `refillBuffer` on end of input (read returns 0) sets the view to the
  empty string, discarding any unconsumed bytes; a read error (-1) is
  not modelled because the input stream is given as pure data.

The state additionally carries a ghost `trace` of the constructs the
handlers consumed (text runs, CDATA bodies, attributes, start tags);
the handlers append to it exactly where the C++ code consumes the
corresponding characters, and it is never read back by `step`.
-/

namespace SrcFacts

/-- Character class of `tagNameMask` (srcFacts.cpp line 51): letters,
digits, `-`, `.`, `_`.  Bytes outside 0..127 would index the
`std::bitset<128>` out of range; all inputs considered are ASCII. -/
def isTagNameChar (c : Char) : Bool :=
  ("abcdefghijklmnopqrstuvwxyzABCDEFGHIJKLMNOPQRSTUVWXYZ0123456789-_.".data).contains c

/-- `SPACE_CHARS` (line 55): space, newline, tab, carriage return,
vertical tab, form feed. -/
def spaceChars : List Char := (" \n\t\r\x0b\x0c").data

/-- Reasons the embedding stops at C++ undefined behaviour. -/
inductive Ub where
  | idx (i len : Nat)
  | drop (n len : Nat)
  | front
  deriving DecidableEq, Repr

/-- `npos` as a `size_t` value, used when `remove_prefix` receives the
result of a failed `find_first_not_of`. -/
def nposN : Nat := 2 ^ 64 - 1

/-- Checked `view[i]`. -/
def svGet (s : List Char) (i : Nat) : Except Ub Char :=
  if h : i < s.length then .ok (s.get ⟨i, h⟩) else .error (.idx i s.length)

/-- Checked `view.front()`. -/
def frontE (s : List Char) : Except Ub Char :=
  match s with
  | [] => .error .front
  | c :: _ => .ok c

/-- Checked `remove_prefix` with a `size_t` argument. -/
def rpN (n : Nat) (s : List Char) : Except Ub (List Char) :=
  if n ≤ s.length then .ok (s.drop n) else .error (.drop n s.length)

/-- Checked `remove_prefix` with an argument computed in `int`
arithmetic; a negative value converts to a huge `size_t`. -/
def rpI (n : Int) (s : List Char) : Except Ub (List Char) :=
  if 0 ≤ n then rpN n.toNat s else .error (.drop nposN s.length)

/-- `contents.remove_prefix(contents.find_first_not_of(SPACE_CHARS))`:
if every byte is a space (or the view is empty) the find yields `npos`
and the `remove_prefix` is undefined behaviour. -/
def rpSkipSpace (s : List Char) : Except Ub (List Char) :=
  match s.findIdx? (fun c => !(spaceChars.contains c)) with
  | none => .error (.drop nposN s.length)
  | some p => .ok (s.drop p)

/-- `std::string_view::find` for a substring, as an `Option`al position. -/
def findStrAux (pat : List Char) : List Char → Nat → Option Nat
  | [], i => if pat.isPrefixOf [] then some i else none
  | c :: r, i => if pat.isPrefixOf (c :: r) then some i else findStrAux pat r (i + 1)

/-- Substring find returning `none` for `npos`. -/
def svFindStr (pat s : List Char) : Option Nat := findStrAux pat s 0

/-- Character find returning `none` for `npos`. -/
def svFindCh (ch : Char) (s : List Char) : Option Nat := s.findIdx? (· = ch)

/-- Substring find whose result is stored in an `int` (npos becomes -1). -/
def findStrI (pat s : List Char) : Int :=
  match svFindStr pat s with
  | none => -1
  | some p => (p : Int)

/-- Character find whose result is stored in an `int`. -/
def findChI (ch : Char) (s : List Char) : Int :=
  match svFindCh ch s with
  | none => -1
  | some p => (p : Int)

/-- `find_first_of` of a character set, stored in an `int`. -/
def findFirstOfI (set s : List Char) : Int :=
  match s.findIdx? (fun c => set.contains c) with
  | none => -1
  | some p => (p : Int)

/-- `substr(0, n)` with an `int` count: `-1` converts to `npos` and the
count clamps to the whole view. -/
def takeI (n : Int) (s : List Char) : List Char :=
  if n < 0 then s else s.take n.toNat

/-- `std::distance(begin, find_if_not(begin, end, tagNameMask))`:
length of the leading run of tag-name characters. -/
def countLeadingName (s : List Char) : Nat := (s.takeWhile isTagNameChar).length

/-- Number of newline bytes in a run, as counted by `std::count`. -/
def countNL (s : List Char) : Int := ((s.filter (fun c => c = '\n')).length : Int)

/-- Ghost events recording what the construct handlers consumed. -/
inductive Ev where
  | text (s : List Char)
  | cdata (s : List Char)
  | attr (localName value : List Char)
  | startTag (localName : List Char) (depthAt : Int)
  deriving DecidableEq, Repr

/-- The scanner state: the local variables of `main` (lines 112-131)
plus the remaining input chunks and the ghost trace. -/
structure St where
  url : List Char
  textsize : Int
  loc : Int
  exprCount : Int
  functionCount : Int
  classCount : Int
  unitCount : Int
  declCount : Int
  commentCount : Int
  depth : Int
  totalBytes : Int
  inTag : Bool
  inXMLComment : Bool
  inCDATA : Bool
  inTagQName : List Char
  inTagPfx : List Char
  inTagLocal : List Char
  isArchive : Bool
  contents : List Char
  input : List (List Char)
  trace : List Ev
  deriving DecidableEq, Repr

/-- Result of one loop iteration. -/
inductive StepRes where
  | next (s : St)
  | brk (s : St)
  | err (m : String) (s : St)
  | ub (u : Ub) (s : St)
  deriving DecidableEq, Repr

/-- `refillBuffer` (lines 68-91): append the next read chunk to the
unconsumed bytes; a read returning 0 (end of input, modelled both by an
exhausted chunk list and by an empty chunk) resets the view to empty. -/
def refill (c : List Char) (input : List (List Char)) :
    List Char × List (List Char) × Nat :=
  match input with
  | [] => ([], [], 0)
  | ch :: rest => if ch = [] then ([], rest, 0) else (c ++ ch, rest, ch.length)

/-- Lines 134-143: refill when fewer than 5 bytes remain; leave the loop
when the view is empty afterwards and no comment or CDATA is open. -/
def refillStep (st : St) : StepRes :=
  match refill st.contents st.input with
  | (c2, inp2, n) =>
    let s : St := { st with contents := c2, input := inp2,
                            totalBytes := st.totalBytes + (n : Int) }
    if s.inXMLComment = false ∧ s.inCDATA = false ∧ s.contents = [] then .brk s
    else .next s

/-- Early exit of a construct scan: a parser error message (the
program prints it and returns 1) or undefined behaviour. -/
inductive ScanExit where
  | e (m : String)
  | u (x : Ub)
  deriving DecidableEq, Repr

/-- How a tag-interior scan left the tag: `gt` consumed `>` (the
element opens), `selfClose` consumed `/>`, `stay` consumed neither. -/
inductive Close where
  | gt
  | selfClose
  | stay
  deriving DecidableEq, Repr

/-- Lines 146-186 as a pure scan of the view: consume
`xmlns[:p]="uri"` and, per lines 180-188, a following `>` or `/>`.
Returns the remaining view and the close action. -/
def xmlnsScan (c : List Char) : Except ScanExit (List Char × Close) :=
  let c0 := c.drop 5
  let ne : Int := findChI '=' c0
  if ne = -1 then .error (.e "parser error : incomplete namespace")
  else
    match frontE c0 with
    | .error u => .error (.u u)
    | .ok f =>
      let c1 := if f = ':' then c0.drop 1 else c0
      let ne1 : Int := if f = ':' then ne - 1 else ne
      match rpI (ne1 + 1) c1 with
      | .error u => .error (.u u)
      | .ok c2 =>
        match rpSkipSpace c2 with
        | .error u => .error (.u u)
        | .ok c3 =>
          if c3 = [] then .error (.e "parser error : incomplete namespace")
          else
            match frontE c3 with
            | .error u => .error (.u u)
            | .ok delim =>
              if delim ≠ '"' ∧ delim ≠ Char.ofNat 39 then
                .error (.e "parser error : incomplete namespace")
              else
                let c4 := c3.drop 1
                let ve : Int := findChI delim c4
                if ve = -1 then .error (.e "parser error : incomplete namespace")
                else
                  match rpI (ve + 1) c4 with
                  | .error u => .error (.u u)
                  | .ok c5 =>
                    match rpSkipSpace c5 with
                    | .error u => .error (.u u)
                    | .ok c6 =>
                      match svGet c6 0 with
                      | .error u => .error (.u u)
                      | .ok g0 =>
                        if g0 = '>' then .ok (c6.drop 1, .gt)
                        else if g0 = '/' then
                          match svGet c6 1 with
                          | .error u => .error (.u u)
                          | .ok g1 =>
                            if g1 = '>' then .ok (c6.drop 2, .selfClose)
                            else .ok (c6, .stay)
                        else .ok (c6, .stay)

/-- Lines 144-188: namespace declaration inside a start tag
(`xmlns:` or `xmlns=`).  Entered with `contents.take 5 = "xmlns"` and
`contents[5]` equal to `:` or `=`.  Contributes nothing to Metrics. -/
def xmlnsStep (st : St) : StepRes :=
  match xmlnsScan st.contents with
  | .error (.e m) => .err m st
  | .error (.u u) => .ub u st
  | .ok (c6, .gt) =>
    .next { st with contents := c6, inTag := false, depth := st.depth + 1 }
  | .ok (c6, .selfClose) => .next { st with contents := c6, inTag := false }
  | .ok (c6, .stay) => .next { st with contents := c6 }

/-- Lines 191-243 as a pure scan of the view: parse one
`name = "value"` attribute and, per lines 235-243, a following `>` or
`/>`.  Returns the attribute local name and value, the remaining view
and the close action.  The delimiter-missing check on line 225 compares
an `int` position against `size()`, so a failed find (`-1`) passes it
and the value becomes the whole view. -/
def attrScan (c : List Char) :
    Except ScanExit (List Char × List Char × List Char × Close) :=
  let ne : Nat := countLeadingName c
  if ne = c.length then .error (.e "parser error : Empty attribute name")
  else
    let qName := c.take ne
    if svFindCh ':' qName = some 0 then
      .error (.e "parser error : Invalid attribute name")
    else
      let colonPosition : Nat := (svFindCh ':' qName).getD 0
      let localName :=
        if colonPosition ≠ 0 then qName.drop (colonPosition + 1) else qName
      match rpSkipSpace (c.drop ne) with
      | .error u => .error (.u u)
      | .ok c2 =>
        if c2 = [] then .error (.e "parser error : incomplete attribute")
        else
          match frontE c2 with
          | .error u => .error (.u u)
          | .ok f2 =>
            if f2 ≠ '=' then .error (.e "parser error : missing =")
            else
              match rpSkipSpace (c2.drop 1) with
              | .error u => .error (.u u)
              | .ok c4 =>
                match frontE c4 with
                | .error u => .error (.u u)
                | .ok delim =>
                  if delim ≠ '"' ∧ delim ≠ Char.ofNat 39 then
                    .error (.e "parser error : missing delimiter")
                  else
                    let c5 := c4.drop 1
                    let ve : Int := findChI delim c5
                    if 0 ≤ ve ∧ ve = (c5.length : Int) then
                      .error (.e "parser error : missing delimiter")
                    else
                      let value := takeI ve c5
                      match rpI (ve + 1) c5 with
                      | .error u => .error (.u u)
                      | .ok c6 =>
                        match rpSkipSpace c6 with
                        | .error u => .error (.u u)
                        | .ok c7 =>
                          match svGet c7 0 with
                          | .error u => .error (.u u)
                          | .ok g0 =>
                            if g0 = '>' then .ok (localName, value, c7.drop 1, .gt)
                            else if g0 = '/' then
                              match svGet c7 1 with
                              | .error u => .error (.u u)
                              | .ok g1 =>
                                if g1 = '>' then .ok (localName, value, c7.drop 2, .selfClose)
                                else .ok (localName, value, c7, .stay)
                            else .ok (localName, value, c7, .stay)

/-- Lines 189-243: attribute inside a start tag.  An attribute whose
local name is `url` overwrites the document identifier (lines
230-231); in the C++ code the overwrite happens before the tag-closing
bytes are read, so on the paths this scan reports as undefined
behaviour the assignment had already occurred, which is irrelevant
because those executions are undefined. -/
def attrStep (st : St) : StepRes :=
  match attrScan st.contents with
  | .error (.e m) => .err m st
  | .error (.u u) => .ub u st
  | .ok (localName, value, c7, cl) =>
    let st1 : St :=
      { st with
        url := if localName = "url".data then value else st.url,
        trace := st.trace ++ [Ev.attr localName value] }
    match cl with
    | .gt => .next { st1 with contents := c7, inTag := false, depth := st.depth + 1 }
    | .selfClose => .next { st1 with contents := c7, inTag := false }
    | .stay => .next { st1 with contents := c7 }

/-- Lines 247-263 as a pure scan: find `-->`, returning the new
in-comment flag and the remaining view.  The not-found test on line
256 compares an `int` `-1` against `size()` and is always false, so
the flag never becomes true and a missing terminator removes
`-1 + 1 + 3 = 3` bytes. -/
def commentScan (c : List Char) (inXMLComment : Bool) :
    Except ScanExit (Bool × List Char) :=
  if c = [] then .error (.e "parser error : Unterminated XML comment")
  else
    match (if inXMLComment = false then rpN 4 c else .ok c) with
    | .error u => .error (.u u)
    | .ok c1 =>
      let t : Int := findStrI ("-->".data) c1
      let inC : Bool := 0 ≤ t ∧ t = (c1.length : Int)
      if inC = false then
        match rpI (if t = -1 then 3 else t + 4) c1 with
        | .error u => .error (.u u)
        | .ok c2 => .ok (false, c2)
      else .ok (true, c1.drop t.toNat)

/-- Lines 244-263: XML comment handler.  Its guard compares the whole
view with `"<!=="`, which a view of length at least 5 never equals, so
with `inXMLComment` initially false the branch is unreachable; it is
still translated faithfully.  The body is discarded: no Metrics
field changes. -/
def commentStep (st : St) : StepRes :=
  match commentScan st.contents st.inXMLComment with
  | .error (.e m) => .err m st
  | .error (.u u) => .ub u st
  | .ok (inC, c2) => .next { st with inXMLComment := inC, contents := c2 }

/-- Lines 267-285 as a pure scan: find `]]>`, returning the consumed
character run, the new in-CDATA flag and the remaining view.  Line 276
compares an `int` `-1` against `size()`, so the flag never becomes
true; when `]]>` is found at `p` the code removes `p + 3 + 1` bytes,
one more than the construct, and when it is not found the whole
remainder becomes the character run and only 3 bytes are removed. -/
def cdataScan (c : List Char) (inCDATA : Bool) :
    Except ScanExit (List Char × Bool × List Char) :=
  if c = [] then .error (.e "parser error : Unterminated CDATA")
  else
    match (if inCDATA = false then rpN 9 c else .ok c) with
    | .error u => .error (.u u)
    | .ok c1 =>
      let t : Int := findStrI ("]]>".data) c1
      let inC : Bool := 0 ≤ t ∧ t = (c1.length : Int)
      let chars := takeI t c1
      if inC = false then
        match rpI (if t = -1 then 3 else t + 4) c1 with
        | .error u => .error (.u u)
        | .ok c2 => .ok (chars, false, c2)
      else .ok (chars, true, c1.drop t.toNat)

/-- Lines 264-286: CDATA handler.  Entered after the nine-byte opener
check succeeded (or with `inCDATA`, which never becomes true).  The
body counts as program text: its length is added to the text size and
its newlines to the line count (lines 279-280). -/
def cdataStep (st : St) : StepRes :=
  match cdataScan st.contents st.inCDATA with
  | .error (.e m) => .err m st
  | .error (.u u) => .ub u st
  | .ok (chars, inC, c2) =>
    .next { st with textsize := st.textsize + (chars.length : Int),
                    loc := st.loc + countNL chars,
                    inCDATA := inC,
                    contents := c2,
                    trace := st.trace ++ [Ev.cdata chars] }

/-- Lines 287-403: XML declaration handler.  Entered with
`contents.take 5 = "<?xml"` and `contents[5] = ' '`.  If no `>` is in
view, one refill is attempted.  The attribute names and values found
with `auto` (`size_t`) positions wrap `npos + 1` to 0.  Because of the
`if (true)` blocks, an accepted declaration must carry `version`, then
`encoding` or `standalone`, then (if not yet seen) `standalone`. -/
def xmlDeclScan (c : List Char) (input : List (List Char)) (totalBytes : Int) :
    Except ScanExit (List Char × List (List Char) × Int) :=
  match (match svFindCh '>' c with
         | some p => some (c, input, totalBytes, p)
         | none =>
           match refill c input with
           | (cR, inpR, n) =>
             match svFindCh '>' cR with
             | some p => some (cR, inpR, totalBytes + (n : Int), p)
             | none => none) with
  | none => .error (.e "parser error: Incomplete XML declaration")
  | some (cA, inpA, tbA, tagEnd) =>
    match rpN 5 cA with
    | .error u => .error (.u u)
    | .ok c1 =>
      match rpSkipSpace c1 with
      | .error u => .error (.u u)
      | .ok c2 =>
        let ne1 := svFindCh '=' c2
        let attr1 := match ne1 with | none => c2 | some p => c2.take p
        let c3 := match ne1 with | none => c2 | some p => c2.drop (p + 1)
        match frontE c3 with
        | .error u => .error (.u u)
        | .ok d1 =>
          if d1 ≠ '"' ∧ d1 ≠ Char.ofNat 39 then
            .error (.e "parser error: Invalid start delimiter for version in XML declaration")
          else
            let c4 := c3.drop 1
            let ve1 : Int := findChI d1 c4
            if ve1 = -1 then
              .error (.e "parser error: Invalid end delimiter for version in XML declaration")
            else if attr1 ≠ "version".data then
              .error (.e "parser error: Missing required first attribute version in XML declaration")
            else
              match rpI (ve1 + 1) c4 with
              | .error u => .error (.u u)
              | .ok c5 =>
                match rpSkipSpace c5 with
                | .error u => .error (.u u)
                | .ok c6 =>
                  let ne2 := svFindCh '=' c6
                  let attr2 := match ne2 with | none => c6 | some p => c6.take p
                  let c7 := match ne2 with | none => c6 | some p => c6.drop (p + 1)
                  match frontE c7 with
                  | .error u => .error (.u u)
                  | .ok d2 =>
                    if d2 ≠ '"' ∧ d2 ≠ Char.ofNat 39 then
                      .error (.e "parser error: Invalid end delimiter for attribute in XML declaration")
                    else
                      let c8 := c7.drop 1
                      let ve2 := svFindCh d2 c8
                      if attr2 ≠ "encoding".data ∧ attr2 ≠ "standalone".data then
                        .error (.e "parser error: Invalid attribute in XML declaration")
                      else
                        let sa1 : Bool := attr2 = "standalone".data
                        let c9 := match ve2 with | none => c8 | some p => c8.drop (p + 1)
                        match rpSkipSpace c9 with
                        | .error u => .error (.u u)
                        | .ok c10 =>
                          match svFindCh '=' (c10.take tagEnd) with
                          | none => .error (.e "parser error: Incomplete attribute in XML declaration")
                          | some p3 =>
                            let attr3 := c10.take p3
                            let c11 := c10.drop (p3 + 1)
                            match frontE c11 with
                            | .error u => .error (.u u)
                            | .ok d3 =>
                              if d3 ≠ '"' ∧ d3 ≠ Char.ofNat 39 then
                                .error (.e "parser error: Invalid end delimiter for attribute in XML declaration")
                              else
                                let c12 := c11.drop 1
                                match svFindCh d3 (c12.take tagEnd) with
                                | none => .error (.e "parser error: Incomplete attribute in XML declaration")
                                | some pv3 =>
                                  if sa1 = false ∧ attr3 = "standalone".data then
                                    let c13 := c12.drop (pv3 + 1)
                                    match (match (c13.take tagEnd).findIdx? (fun ch => !(spaceChars.contains ch)) with
                                           | none => Except.error (Ub.drop nposN c13.length)
                                           | some q => rpN q c13) with
                                    | .error u => .error (.u u)
                                    | .ok c14 =>
                                      match rpN 2 c14 with
                                      | .error u => .error (.u u)
                                      | .ok c15 =>
                                        match rpSkipSpace c15 with
                                        | .error u => .error (.u u)
                                        | .ok c16 => .ok (c16, inpA, tbA)
                                  else .error (.e "parser error: Invalid attribute in XML declaration")

/-- Lines 287-403: the XML declaration branch of the loop.  The parsed
version, encoding and standalone values are not retained; nothing but
the view (and the refill bookkeeping) changes. -/
def xmlDeclStep (st : St) : StepRes :=
  match xmlDeclScan st.contents st.input st.totalBytes with
  | .error (.e m) => .err m st
  | .error (.u u) => .ub u st
  | .ok (c16, inpA, tbA) =>
    .next { st with contents := c16, input := inpA, totalBytes := tbA }

/-- Lines 404-432: processing instruction.  If `?>` is not in view a
single refill is attempted.  The code removes `2 + nameEnd` bytes and
then removes the stale `tagEndPosition` measured in the original view,
so it over-consumes past `?>` (or hits undefined behaviour when the
view is short). -/
def piScan (c : List Char) (input : List (List Char)) (totalBytes : Int) :
    Except ScanExit (List Char × List (List Char) × Int) :=
  match (let t0 : Int := findStrI ("?>".data) c
         if t0 = -1 then
           match refill c input with
           | (cR, inpR, n) =>
             let t1 : Int := findStrI ("?>".data) cR
             if t1 = -1 then none
             else some (cR, inpR, totalBytes + (n : Int), t1)
         else some (c, input, totalBytes, t0)) with
  | none => .error (.e "parser error: Incomplete XML declaration")
  | some (cA, inpA, tbA, t) =>
    match rpN 2 cA with
    | .error u => .error (.u u)
    | .ok c1 =>
      let ne := countLeadingName c1
      if ne = 0 then .error (.e "parser error : Unterminated processing instruction")
      else
        match rpI t (c1.drop ne) with
        | .error u => .error (.u u)
        | .ok c3 =>
          match rpN 2 c3 with
          | .error u => .error (.u u)
          | .ok c4 => .ok (c4, inpA, tbA)

/-- Lines 404-432: the processing-instruction branch of the loop;
contributes nothing to Metrics. -/
def piStep (st : St) : StepRes :=
  match piScan st.contents st.input st.totalBytes with
  | .error (.e m) => .err m st
  | .error (.u u) => .ub u st
  | .ok (c4, inpA, tbA) =>
    .next { st with contents := c4, input := inpA, totalBytes := tbA }

/-- Lines 433-473: end tag.  When the view is short and holds no `>`,
one refill is attempted.  The depth counter is decremented with no
check that it is positive and no comparison of the tag name with any
open start tag; the byte after the name is consumed as if it were `>`. -/
def endTagScan (c : List Char) (input : List (List Char)) (totalBytes : Int) :
    Except ScanExit (List Char × List (List Char) × Int) :=
  match (if c.length < 100 then
           if c.contains '>' then some (c, input, totalBytes)
           else
             match refill c input with
             | (cR, inpR, n) =>
               if cR.contains '>' then some (cR, inpR, totalBytes + (n : Int))
               else none
         else some (c, input, totalBytes)) with
  | none => .error (.e "parser error: Incomplete element end tag")
  | some (cA, inpA, tbA) =>
    match rpN 2 cA with
    | .error u => .error (.u u)
    | .ok c1 =>
      match frontE c1 with
      | .error u => .error (.u u)
      | .ok f =>
        if f = ':' then .error (.e "parser error : Invalid end tag name")
        else
          let ne := countLeadingName c1
          if ne = c1.length then .error (.e "parser error : Unterminated end tag")
          else if c1.take ne = [] then
            .error (.e "parser error: EndTag: invalid element name")
          else .ok (c1.drop (ne + 1), inpA, tbA)

/-- Lines 433-473: the end-tag branch of the loop.  The depth counter
is decremented unconditionally (line 472): there is no check that it
is positive and no comparison of the end tag's name with any start
tag. -/
def endTagStep (st : St) : StepRes :=
  match endTagScan st.contents st.input st.totalBytes with
  | .error (.e m) => .err m st
  | .error (.u u) => .ub u st
  | .ok (c2, inpA, tbA) =>
    .next { st with contents := c2, depth := st.depth - 1,
                    input := inpA, totalBytes := tbA }

/-- Counting policy on a start tag (lines 514-528): bump the counter
matching the local name; a `unit` seen while depth is exactly 1 marks
the document as an archive.  Appends the ghost start-tag event. -/
def bump (st : St) (localName : List Char) : St :=
  let st1 : St := { st with trace := st.trace ++ [Ev.startTag localName st.depth] }
  if localName = "expr".data then { st1 with exprCount := st1.exprCount + 1 }
  else if localName = "decl".data then { st1 with declCount := st1.declCount + 1 }
  else if localName = "comment".data then { st1 with commentCount := st1.commentCount + 1 }
  else if localName = "function".data then { st1 with functionCount := st1.functionCount + 1 }
  else if localName = "unit".data then
    { st1 with unitCount := st1.unitCount + 1,
               isArchive := if st.depth = 1 then true else st1.isArchive }
  else if localName = "class".data then { st1 with classCount := st1.classCount + 1 }
  else st1

/-- Lines 474-544: start tag.  When the view is shorter than 200 bytes
and holds no `>`, one refill is attempted.  A `>` opens the element
(depth + 1), `/>` closes it in place, anything else switches to
attribute mode (`inTag`). -/
def startTagScan (c : List Char) (input : List (List Char)) (totalBytes : Int) :
    Except ScanExit
      (List Char × Nat × List Char × List Char × Close × List (List Char) × Int) :=
  match (if c.length < 200 then
           if c.contains '>' then some (c, input, totalBytes)
           else
             match refill c input with
             | (cR, inpR, n) =>
               if cR.contains '>' then some (cR, inpR, totalBytes + (n : Int))
               else none
         else some (c, input, totalBytes)) with
  | none => .error (.e "parser error: Incomplete element start tag")
  | some (cA, inpA, tbA) =>
    match rpN 1 cA with
    | .error u => .error (.u u)
    | .ok c1 =>
      match frontE c1 with
      | .error u => .error (.u u)
      | .ok f =>
        if f = ':' then .error (.e "parser error : Invalid start tag name")
        else
          let ne0 := countLeadingName c1
          if ne0 = c1.length then .error (.e "parser error : Unterminated start tag")
          else
            let colonPosition : Nat :=
              if c1.getD ne0 ' ' = ':' then ne0 else 0
            let ne : Nat :=
              if c1.getD ne0 ' ' = ':' then
                ne0 + 1 + countLeadingName (c1.drop (ne0 + 1))
              else ne0
            let qName := c1.take ne
            if qName = [] then .error (.e "parser error: StartTag: invalid element name")
            else
              let localName :=
                (if colonPosition ≠ 0 then qName.drop (colonPosition + 1) else qName).take ne
              let c2 := c1.drop ne
              match frontE c2 with
              | .error u => .error (.u u)
              | .ok g =>
                match (if g ≠ '>' then rpSkipSpace c2 else .ok c2) with
                | .error u => .error (.u u)
                | .ok c3 =>
                  match frontE c3 with
                  | .error u => .error (.u u)
                  | .ok g2 =>
                    if g2 = '>' then
                      .ok (qName, colonPosition, localName, c3.drop 1, .gt, inpA, tbA)
                    else if g2 = '/' then
                      match svGet c3 1 with
                      | .error u => .error (.u u)
                      | .ok g3 =>
                        if g3 = '>' then
                          .ok (qName, colonPosition, localName, c3.drop 2, .selfClose, inpA, tbA)
                        else .ok (qName, colonPosition, localName, c3, .stay, inpA, tbA)
                    else .ok (qName, colonPosition, localName, c3, .stay, inpA, tbA)

/-- Lines 474-544: the start-tag branch of the loop.  The counting
policy runs on the local name before the closing bytes are handled;
`>` opens the element (depth + 1), `/>` closes it in place with no
depth change, and anything else switches to attribute mode. -/
def startTagStep (st : St) : StepRes :=
  match startTagScan st.contents st.input st.totalBytes with
  | .error (.e m) => .err m st
  | .error (.u u) => .ub u st
  | .ok (qName, colonPosition, localName, c3, cl, inpA, tbA) =>
    let st1 := bump st localName
    match cl with
    | .gt =>
      .next { st1 with contents := c3, depth := st.depth + 1,
                       input := inpA, totalBytes := tbA }
    | .selfClose =>
      .next { st1 with contents := c3, input := inpA, totalBytes := tbA }
    | .stay =>
      .next { st1 with contents := c3, inTag := true,
                       inTagQName := qName,
                       inTagPfx := qName.take colonPosition,
                       inTagLocal := qName.drop (colonPosition + 1),
                       input := inpA, totalBytes := tbA }

/-- Lines 545-547: at depth 0 skip leading whitespace.  If the first
byte is not whitespace nothing is removed and the loop repeats the same
state forever; if every byte is whitespace the `remove_prefix(npos)` is
undefined behaviour. -/
def ws0Step (st : St) : StepRes :=
  match st.contents.findIdx? (fun ch => !(spaceChars.contains ch)) with
  | none => .ub (Ub.drop nposN st.contents.length) st
  | some p => .next { st with contents := st.contents.drop p }

/-- Lines 548-567: entity reference.  Recognizes the three escapes and
otherwise consumes the single `&`; each case adds exactly 1 to the text
size. -/
def entityStep (st : St) : StepRes :=
  let c := st.contents
  let c1 :=
    if c.getD 1 ' ' = 'l' ∧ c.getD 2 ' ' = 't' ∧ c.getD 3 ' ' = ';' then c.drop 4
    else if c.getD 1 ' ' = 'g' ∧ c.getD 2 ' ' = 't' ∧ c.getD 3 ' ' = ';' then c.drop 4
    else if c.getD 1 ' ' = 'a' ∧ c.getD 2 ' ' = 'm' ∧ c.getD 3 ' ' = 'p' ∧ c.getD 4 ' ' = ';' then c.drop 5
    else c.drop 1
  .next { st with contents := c1, textsize := st.textsize + 1 }

/-- Lines 568-576: plain character run up to the next `<` or `&` (or
the whole view when neither occurs); adds its length to the text size
and its newline count to the line count. -/
def textStep (st : St) : StepRes :=
  let t : Int := findFirstOfI ("<&".data) st.contents
  let chars := takeI t st.contents
  .next { st with contents := st.contents.drop chars.length,
                  loc := st.loc + countNL chars,
                  textsize := st.textsize + (chars.length : Int),
                  trace := st.trace ++ [Ev.text chars] }

/-- Which branch of the `else if` chain runs, or the undefined
behaviour hit while evaluating the chain's conditions. -/
inductive Classified where
  | refillB | xmlnsB | attrB | commentB | cdataB | xmlDeclB | piB
  | endTagB | startTagB | ws0B | entityB | textB
  | oob (u : Ub)
  deriving DecidableEq, Repr

/-- Conditions of branches 6-12 of the chain (lines 287-576), reached
with at least 5 bytes in view.  The XML-declaration test reads
`contents[5]` only after the first five bytes matched `<?xml`. -/
def classifyLow (c : List Char) (depth : Int) : Classified :=
  if c.take 5 = "<?xml".data then
    match svGet c 5 with
    | .error u => .oob u
    | .ok c5 => if c5 = ' ' then .xmlDeclB else .piB
  else if c.take 2 = "<?".data then .piB
  else if c.take 2 = "</".data then .endTagB
  else if c.take 1 = "<".data then .startTagB
  else if depth = 0 then .ws0B
  else if c.take 1 = "&".data then .entityB
  else .textB

/-- The full `else if` chain of the main loop (lines 134-576).  The
guard only guarantees 5 bytes, yet the namespace test reads
`contents[5]` and the CDATA test reads up to `contents[8]`, in the
C++ left-to-right short-circuit order, so those reads can fall outside
the view. -/
def classify (st : St) : Classified :=
  let c := st.contents
  if c.length < 5 then .refillB
  else if st.inTag then
    (if c.take 5 = "xmlns".data then
       match svGet c 5 with
       | .error u => .oob u
       | .ok c5 => if c5 = ':' ∨ c5 = '=' then .xmlnsB else .attrB
     else .attrB)
  else if st.inXMLComment ∨ c = "<!==".data then .commentB
  else if st.inCDATA then .cdataB
  else if c.take 5 = "<![CD".data then
    match svGet c 5 with
    | .error u => .oob u
    | .ok a1 =>
      if a1 ≠ 'A' then classifyLow c st.depth
      else
        match svGet c 6 with
        | .error u => .oob u
        | .ok t1 =>
          if t1 ≠ 'T' then classifyLow c st.depth
          else
            match svGet c 7 with
            | .error u => .oob u
            | .ok a2 =>
              if a2 ≠ 'A' then classifyLow c st.depth
              else
                match svGet c 8 with
                | .error u => .oob u
                | .ok b1 =>
                  if b1 ≠ '[' then classifyLow c st.depth else .cdataB
  else classifyLow c st.depth

/-- One iteration of the scanning loop. -/
def step (st : St) : StepRes :=
  match classify st with
  | .refillB => refillStep st
  | .xmlnsB => xmlnsStep st
  | .attrB => attrStep st
  | .commentB => commentStep st
  | .cdataB => cdataStep st
  | .xmlDeclB => xmlDeclStep st
  | .piB => piStep st
  | .endTagB => endTagStep st
  | .startTagB => startTagStep st
  | .ws0B => ws0Step st
  | .entityB => entityStep st
  | .textB => textStep st
  | .oob u => .ub u st

/-- Result of running the loop with a fuel bound: `ok` is the normal
`break` (the program then prints the report and exits 0), `err` is a
parser error (exit code 1), `ub` is undefined behaviour, `fuel` means
the loop had not finished within the bound. -/
inductive Outcome where
  | ok (s : St)
  | err (m : String) (s : St)
  | ub (u : Ub) (s : St)
  | fuel (s : St)
  deriving DecidableEq, Repr

/-- Run the loop for at most `n` iterations. -/
def run : Nat → St → Outcome
  | 0, st => .fuel st
  | n + 1, st =>
    match step st with
    | .next s => run n s
    | .brk s => .ok s
    | .err m s => .err m s
    | .ub u s => .ub u s

/-- Initial state of `main` (lines 112-131) with the given chunked
input stream. -/
def initSt (input : List (List Char)) : St :=
  { url := [], textsize := 0, loc := 0, exprCount := 0, functionCount := 0,
    classCount := 0, unitCount := 0, declCount := 0, commentCount := 0,
    depth := 0, totalBytes := 0, inTag := false, inXMLComment := false,
    inCDATA := false, inTagQName := [], inTagPfx := [], inTagLocal := [],
    isArchive := false, contents := [], input := input, trace := [] }

/-- State carried by an outcome. -/
def stOf : Outcome → St
  | .ok s => s
  | .err _ s => s
  | .ub _ s => s
  | .fuel s => s

/-- Whether the run finished normally (exit code 0). -/
def isOk : Outcome → Bool
  | .ok _ => true
  | _ => false

/-- Error message of a failed run (exit code 1), if any. -/
def errMsgOf : Outcome → Option String
  | .err m _ => some m
  | _ => none

/-- Undefined-behaviour tag of a run, if any. -/
def ubOf : Outcome → Option Ub
  | .ub u _ => some u
  | _ => none

/-- File count computed after the loop (lines 582-584):
`files = unitCount`, minus one when the document is an archive. -/
def finalFiles (st : St) : Int :=
  if st.isArchive then st.unitCount - 1 else st.unitCount

/-- The flat Metrics record as reported (lines 587-598): document
identifier, text volume, line count, file count and the six element
counters. -/
structure Metrics where
  url : List Char
  textsize : Int
  loc : Int
  files : Int
  classCount : Int
  functionCount : Int
  declCount : Int
  exprCount : Int
  commentCount : Int
  unitCount : Int
  deriving DecidableEq, Repr

/-- The Metrics a run reports, or none when it did not exit 0. -/
def metricsOf (o : Outcome) : Option Metrics :=
  match o with
  | .ok s => some ⟨s.url, s.textsize, s.loc, finalFiles s, s.classCount,
                   s.functionCount, s.declCount, s.exprCount, s.commentCount,
                   s.unitCount⟩
  | _ => none

/-- Newlines a trace event contributes through the plain-text handler. -/
def evLocText : Ev → Int
  | .text s => countNL s
  | _ => 0

/-- Newlines a trace event contributes through the CDATA handler. -/
def evLocCData : Ev → Int
  | .cdata s => countNL s
  | _ => 0

/-- Newlines of all plain-text runs of a trace. -/
def sumLocText (tr : List Ev) : Int := (tr.map evLocText).sum

/-- Newlines of all CDATA bodies of a trace. -/
def sumLocCData (tr : List Ev) : Int := (tr.map evLocCData).sum

/-- Value of an attribute event whose local name is `url`. -/
def evUrl : Ev → Option (List Char)
  | .attr ln v => if ln = "url".data then some v else none
  | _ => none

/-- The document identifier determined by a trace: the value of the
last `url` attribute, or the initial empty string if there is none. -/
def urlOfTrace (tr : List Ev) : List Char := (tr.filterMap evUrl).getLastD []

/-- Whether an event is a start tag with the given local name. -/
def isStartOf (n : List Char) : Ev → Bool
  | .startTag ln _ => ln = n
  | _ => false

/-- Number of start tags with the given local name in a trace. -/
def countTag (n : List Char) (tr : List Ev) : Int :=
  ((tr.filter (isStartOf n)).length : Int)

/-- Whether an event is a `unit` start tag seen at depth 1. -/
def unitAt1 : Ev → Bool
  | .startTag ln d => decide (ln = "unit".data ∧ d = 1)
  | _ => false

/-- Whether a trace contains a `unit` start tag seen at depth 1. -/
def archiveOf (tr : List Ev) : Bool := tr.any unitAt1

/-- Relation between the metric fields of the state and the ghost
trace, maintained by every loop iteration. -/
def Inv (st : St) : Prop :=
  st.loc = sumLocText st.trace + sumLocCData st.trace ∧
  st.url = urlOfTrace st.trace ∧
  st.exprCount = countTag ("expr".data) st.trace ∧
  st.declCount = countTag ("decl".data) st.trace ∧
  st.commentCount = countTag ("comment".data) st.trace ∧
  st.functionCount = countTag ("function".data) st.trace ∧
  st.unitCount = countTag ("unit".data) st.trace ∧
  st.classCount = countTag ("class".data) st.trace ∧
  st.isArchive = archiveOf st.trace

/-- A single read delivering `<u/><![CD` (a read may return fewer
bytes than requested): after the self-closing tag the view is exactly
the five bytes `<![CD`. -/
def c1Input : List (List Char) := [("<u/><![CD").data]

/-- A well-formed document whose start tag is longer than the
lookahead that byte-sized reads can accumulate. -/
def c2Whole : List Char := ("<unita></unita>").data

/-- The same bytes delivered by one single read. -/
def c2OneChunk : List (List Char) := [c2Whole]

/-- The same bytes delivered one byte per read. -/
def c2ByteChunks : List (List Char) := c2Whole.map (fun ch => [ch])

/-- A document with one plain-text newline. -/
def c3Input : List (List Char) := [("<unit>a\nb</unit>").data]

/-- An accepted document with no `unit` element at all. -/
def c4Input : List (List Char) := [("<expr></expr>").data]

/-- An archive: a root `unit` wrapping two depth-1 `unit` elements. -/
def c4ArchiveInput : List (List Char) := [("<unit><unit/><unit/></unit>").data]

/-- A root element followed by a further complete element. -/
def c5TrailInput : List (List Char) := [("<unit></unit><expr></expr>").data]

/-- A CDATA section whose handler consumes one byte too many, so the
closing `</unit>` is treated as text and the final depth stays 1. -/
def c5CdataInput : List (List Char) := [("<unit><![CDATA[x]]></unit>").data]

/-- A closed root element followed by non-whitespace bytes. -/
def c6Input : List (List Char) := [("<unit/>xxxxx").data]

/-- The state the scanner reaches after consuming `<unit/>` from
`c6Input`: depth 0 with the non-whitespace bytes `xxxxx` in view. -/
def c6Loop : St :=
  { url := [], textsize := 0, loc := 0, exprCount := 0, functionCount := 0,
    classCount := 0, unitCount := 1, declCount := 0, commentCount := 0,
    depth := 0, totalBytes := 12, inTag := false, inXMLComment := false,
    inCDATA := false, inTagQName := [], inTagPfx := [], inTagLocal := [],
    isArchive := false, contents := ("xxxxx").data, input := [],
    trace := [Ev.startTag ("unit".data) 0] }

/-- An unterminated comment: `<!--` opened, no `-->` anywhere after. -/
def c7Input : List (List Char) := [("<unit><!-- unterminated").data]

/-- Two `url` attributes, the second on a nested non-root element. -/
def c8Input : List (List Char) := [("<unit url=\"a\"><b url=\"c\"></b></unit>").data]

/-- A state at end of input holding three unconsumed bytes and
arbitrary nonzero metrics. -/
def c9St : St :=
  { initSt [] with contents := ("ab\n").data, loc := 7, textsize := 3,
                   unitCount := 2, depth := 1 }

/-- Three end tags with no preceding start tag. -/
def c10Input : List (List Char) := [("</aa></bb></cc>").data]

/-- A depth-0 state whose view starts with an end tag. -/
def c10St : St := { initSt [] with contents := ("</a>xxxx").data }

/-- The state the end-tag handler produces from `c10St`. -/
def c10Next : St := { c10St with contents := ("xxxx").data, depth := -1 }

@[simp] theorem evLocText_text (s : List Char) : evLocText (Ev.text s) = countNL s := rfl

@[simp] theorem evLocText_cdata (s : List Char) : evLocText (Ev.cdata s) = 0 := rfl

@[simp] theorem evLocText_attr (ln v : List Char) : evLocText (Ev.attr ln v) = 0 := rfl

@[simp] theorem evLocText_start (ln : List Char) (d : Int) :
    evLocText (Ev.startTag ln d) = 0 := rfl

@[simp] theorem evLocCData_text (s : List Char) : evLocCData (Ev.text s) = 0 := rfl

@[simp] theorem evLocCData_cdata (s : List Char) : evLocCData (Ev.cdata s) = countNL s := rfl

@[simp] theorem evLocCData_attr (ln v : List Char) : evLocCData (Ev.attr ln v) = 0 := rfl

@[simp] theorem evLocCData_start (ln : List Char) (d : Int) :
    evLocCData (Ev.startTag ln d) = 0 := rfl

@[simp] theorem isStartOf_text (n s : List Char) : isStartOf n (Ev.text s) = false := rfl

@[simp] theorem isStartOf_cdata (n s : List Char) : isStartOf n (Ev.cdata s) = false := rfl

@[simp] theorem isStartOf_attr (n ln v : List Char) : isStartOf n (Ev.attr ln v) = false := rfl

@[simp] theorem isStartOf_start (n ln : List Char) (d : Int) :
    isStartOf n (Ev.startTag ln d) = decide (ln = n) := rfl

@[simp] theorem unitAt1_text (s : List Char) : unitAt1 (Ev.text s) = false := rfl

@[simp] theorem unitAt1_cdata (s : List Char) : unitAt1 (Ev.cdata s) = false := rfl

@[simp] theorem unitAt1_attr (ln v : List Char) : unitAt1 (Ev.attr ln v) = false := rfl

@[simp] theorem unitAt1_start (ln : List Char) (d : Int) :
    unitAt1 (Ev.startTag ln d) = decide (ln = "unit".data ∧ d = 1) := rfl

@[simp] theorem sumLocText_append (a b : List Ev) :
    sumLocText (a ++ b) = sumLocText a + sumLocText b := by
  simp [sumLocText]

@[simp] theorem sumLocCData_append (a b : List Ev) :
    sumLocCData (a ++ b) = sumLocCData a + sumLocCData b := by
  simp [sumLocCData]

@[simp] theorem sumLocText_one (e : Ev) : sumLocText [e] = evLocText e := by
  simp [sumLocText]

@[simp] theorem sumLocCData_one (e : Ev) : sumLocCData [e] = evLocCData e := by
  simp [sumLocCData]

@[simp] theorem urlOfTrace_append_attr (tr : List Ev) (ln v : List Char) :
    urlOfTrace (tr ++ [Ev.attr ln v]) =
      if ln = "url".data then v else urlOfTrace tr := by
  by_cases h : ln = "url".data <;>
    simp [urlOfTrace, List.filterMap_append, evUrl, h]

@[simp] theorem urlOfTrace_append_start (tr : List Ev) (ln : List Char) (d : Int) :
    urlOfTrace (tr ++ [Ev.startTag ln d]) = urlOfTrace tr := by
  simp [urlOfTrace, List.filterMap_append, evUrl]

@[simp] theorem urlOfTrace_append_text (tr : List Ev) (s : List Char) :
    urlOfTrace (tr ++ [Ev.text s]) = urlOfTrace tr := by
  simp [urlOfTrace, List.filterMap_append, evUrl]

@[simp] theorem urlOfTrace_append_cdata (tr : List Ev) (s : List Char) :
    urlOfTrace (tr ++ [Ev.cdata s]) = urlOfTrace tr := by
  simp [urlOfTrace, List.filterMap_append, evUrl]

@[simp] theorem countTag_append (n : List Char) (tr : List Ev) (e : Ev) :
    countTag n (tr ++ [e]) = countTag n tr + (if isStartOf n e then 1 else 0) := by
  by_cases h : isStartOf n e <;> simp [countTag, List.filter_append, h]

@[simp] theorem archiveOf_append (tr : List Ev) (e : Ev) :
    archiveOf (tr ++ [e]) = (archiveOf tr || unitAt1 e) := by
  simp [archiveOf]

theorem inv_init (input : List (List Char)) : Inv (initSt input) := by
  simp [Inv, initSt, sumLocText, sumLocCData, urlOfTrace, countTag, archiveOf]

theorem refillStep_inv {st s : St}
    (h : refillStep st = .next s ∨ refillStep st = .brk s) (hI : Inv st) : Inv s := by
  unfold refillStep at h
  rcases h with h | h <;>
    (repeat' (first | (split at h) | (dsimp only at h))) <;>
    first
      | exact StepRes.noConfusion h
      | (injection h with h; subst h; simp_all [Inv])

theorem xmlnsStep_inv {st s : St}
    (h : xmlnsStep st = .next s ∨ xmlnsStep st = .brk s) (hI : Inv st) : Inv s := by
  unfold xmlnsStep at h
  rcases h with h | h <;>
    (repeat' (first | (split at h) | (dsimp only at h))) <;>
    first
      | exact StepRes.noConfusion h
      | (injection h with h; subst h; simp_all [Inv])

theorem attrStep_inv {st s : St}
    (h : attrStep st = .next s ∨ attrStep st = .brk s) (hI : Inv st) : Inv s := by
  unfold attrStep at h
  rcases h with h | h <;>
    (repeat' (first | (split at h) | (dsimp only at h))) <;>
    first
      | exact StepRes.noConfusion h
      | (injection h with h; subst h;
         simp_all [Inv, evLocText, evLocCData, isStartOf, unitAt1])

theorem commentStep_inv {st s : St}
    (h : commentStep st = .next s ∨ commentStep st = .brk s) (hI : Inv st) : Inv s := by
  unfold commentStep at h
  rcases h with h | h <;>
    (repeat' (first | (split at h) | (dsimp only at h))) <;>
    first
      | exact StepRes.noConfusion h
      | (injection h with h; subst h; simp_all [Inv])

theorem cdataStep_inv {st s : St}
    (h : cdataStep st = .next s ∨ cdataStep st = .brk s) (hI : Inv st) : Inv s := by
  unfold cdataStep at h
  rcases h with h | h <;>
    (repeat' (first | (split at h) | (dsimp only at h))) <;>
    first
      | exact StepRes.noConfusion h
      | (injection h with h; subst h;
         simp_all [Inv, evLocText, evLocCData, isStartOf, unitAt1]; try omega)

theorem xmlDeclStep_inv {st s : St}
    (h : xmlDeclStep st = .next s ∨ xmlDeclStep st = .brk s) (hI : Inv st) : Inv s := by
  unfold xmlDeclStep at h
  rcases h with h | h <;>
    (repeat' (first | (split at h) | (dsimp only at h))) <;>
    first
      | exact StepRes.noConfusion h
      | (injection h with h; subst h; simp_all [Inv])

theorem piStep_inv {st s : St}
    (h : piStep st = .next s ∨ piStep st = .brk s) (hI : Inv st) : Inv s := by
  unfold piStep at h
  rcases h with h | h <;>
    (repeat' (first | (split at h) | (dsimp only at h))) <;>
    first
      | exact StepRes.noConfusion h
      | (injection h with h; subst h; simp_all [Inv])

theorem endTagStep_inv {st s : St}
    (h : endTagStep st = .next s ∨ endTagStep st = .brk s) (hI : Inv st) : Inv s := by
  unfold endTagStep at h
  rcases h with h | h <;>
    (repeat' (first | (split at h) | (dsimp only at h))) <;>
    first
      | exact StepRes.noConfusion h
      | (injection h with h; subst h; simp_all [Inv])

theorem bump_inv {st : St} (hI : Inv st) (localName : List Char) :
    Inv (bump st localName) := by
  unfold bump
  dsimp only
  repeat' split
  all_goals
    simp_all [Inv, evLocText, evLocCData, isStartOf, unitAt1]

theorem inv_frame {a b : St} (h : Inv a)
    (h1 : b.loc = a.loc) (h2 : b.url = a.url) (h3 : b.exprCount = a.exprCount)
    (h4 : b.declCount = a.declCount) (h5 : b.commentCount = a.commentCount)
    (h6 : b.functionCount = a.functionCount) (h7 : b.unitCount = a.unitCount)
    (h8 : b.classCount = a.classCount) (h9 : b.isArchive = a.isArchive)
    (h10 : b.trace = a.trace) : Inv b := by
  unfold Inv at h ⊢
  rw [h1, h2, h3, h4, h5, h6, h7, h8, h9, h10]
  exact h

theorem startTagStep_inv {st s : St}
    (h : startTagStep st = .next s ∨ startTagStep st = .brk s) (hI : Inv st) : Inv s := by
  unfold startTagStep at h
  rcases h with h | h <;>
    (repeat' (first | (split at h) | (dsimp only at h))) <;>
    first
      | exact StepRes.noConfusion h
      | (injection h with h; subst h;
         exact inv_frame (bump_inv hI _) rfl rfl rfl rfl rfl rfl rfl rfl rfl rfl)

theorem ws0Step_inv {st s : St}
    (h : ws0Step st = .next s ∨ ws0Step st = .brk s) (hI : Inv st) : Inv s := by
  unfold ws0Step at h
  rcases h with h | h <;>
    (repeat' (first | (split at h) | (dsimp only at h))) <;>
    first
      | exact StepRes.noConfusion h
      | (injection h with h; subst h; simp_all [Inv])

theorem entityStep_inv {st s : St}
    (h : entityStep st = .next s ∨ entityStep st = .brk s) (hI : Inv st) : Inv s := by
  unfold entityStep at h
  rcases h with h | h <;>
    (repeat' (first | (split at h) | (dsimp only at h))) <;>
    first
      | exact StepRes.noConfusion h
      | (injection h with h; subst h; simp_all [Inv])

theorem textStep_inv {st s : St}
    (h : textStep st = .next s ∨ textStep st = .brk s) (hI : Inv st) : Inv s := by
  unfold textStep at h
  rcases h with h | h <;>
    (repeat' (first | (split at h) | (dsimp only at h))) <;>
    first
      | exact StepRes.noConfusion h
      | (injection h with h; subst h;
         simp_all [Inv, evLocText, evLocCData]; try omega)

theorem step_inv {st s : St}
    (h : step st = .next s ∨ step st = .brk s) (hI : Inv st) : Inv s := by
  unfold step at h
  cases hc : classify st <;> rw [hc] at h <;> dsimp only at h
  case refillB => exact refillStep_inv h hI
  case xmlnsB => exact xmlnsStep_inv h hI
  case attrB => exact attrStep_inv h hI
  case commentB => exact commentStep_inv h hI
  case cdataB => exact cdataStep_inv h hI
  case xmlDeclB => exact xmlDeclStep_inv h hI
  case piB => exact piStep_inv h hI
  case endTagB => exact endTagStep_inv h hI
  case startTagB => exact startTagStep_inv h hI
  case ws0B => exact ws0Step_inv h hI
  case entityB => exact entityStep_inv h hI
  case textB => exact textStep_inv h hI
  case oob => rcases h with h | h <;> exact StepRes.noConfusion h

theorem run_inv :
    ∀ (fuel : Nat) (st0 stf : St), run fuel st0 = .ok stf → Inv st0 → Inv stf := by
  intro fuel
  induction fuel with
  | zero =>
    intro st0 stf h
    exact absurd h (by simp [run])
  | succ n ih =>
    intro st0 stf h hI
    unfold run at h
    cases hs : step st0 with
    | next s =>
      rw [hs] at h
      exact ih s stf h (step_inv (Or.inl hs) hI)
    | brk s =>
      rw [hs] at h
      injection h with h
      subst h
      exact step_inv (Or.inr hs) hI
    | err m s =>
      rw [hs] at h
      exact Outcome.noConfusion h
    | ub u s =>
      rw [hs] at h
      exact Outcome.noConfusion h

theorem xmlnsStep_ne_brk (st s : St) : xmlnsStep st ≠ StepRes.brk s := by
  intro h
  unfold xmlnsStep at h
  (repeat' (first | (split at h) | (dsimp only at h))) <;> exact StepRes.noConfusion h

theorem attrStep_ne_brk (st s : St) : attrStep st ≠ StepRes.brk s := by
  intro h
  unfold attrStep at h
  (repeat' (first | (split at h) | (dsimp only at h))) <;> exact StepRes.noConfusion h

theorem commentStep_ne_brk (st s : St) : commentStep st ≠ StepRes.brk s := by
  intro h
  unfold commentStep at h
  (repeat' (first | (split at h) | (dsimp only at h))) <;> exact StepRes.noConfusion h

theorem cdataStep_ne_brk (st s : St) : cdataStep st ≠ StepRes.brk s := by
  intro h
  unfold cdataStep at h
  (repeat' (first | (split at h) | (dsimp only at h))) <;> exact StepRes.noConfusion h

theorem xmlDeclStep_ne_brk (st s : St) : xmlDeclStep st ≠ StepRes.brk s := by
  intro h
  unfold xmlDeclStep at h
  (repeat' (first | (split at h) | (dsimp only at h))) <;> exact StepRes.noConfusion h

theorem piStep_ne_brk (st s : St) : piStep st ≠ StepRes.brk s := by
  intro h
  unfold piStep at h
  (repeat' (first | (split at h) | (dsimp only at h))) <;> exact StepRes.noConfusion h

theorem endTagStep_ne_brk (st s : St) : endTagStep st ≠ StepRes.brk s := by
  intro h
  unfold endTagStep at h
  (repeat' (first | (split at h) | (dsimp only at h))) <;> exact StepRes.noConfusion h

theorem startTagStep_ne_brk (st s : St) : startTagStep st ≠ StepRes.brk s := by
  intro h
  unfold startTagStep at h
  (repeat' (first | (split at h) | (dsimp only at h))) <;> exact StepRes.noConfusion h

theorem ws0Step_ne_brk (st s : St) : ws0Step st ≠ StepRes.brk s := by
  intro h
  unfold ws0Step at h
  (repeat' (first | (split at h) | (dsimp only at h))) <;> exact StepRes.noConfusion h

theorem entityStep_ne_brk (st s : St) : entityStep st ≠ StepRes.brk s := by
  intro h
  unfold entityStep at h
  (repeat' (first | (split at h) | (dsimp only at h))) <;> exact StepRes.noConfusion h

theorem textStep_ne_brk (st s : St) : textStep st ≠ StepRes.brk s := by
  intro h
  unfold textStep at h
  dsimp only at h
  exact StepRes.noConfusion h

/-- C1: the claim states that every fixed-offset multi-byte lookahead
of the classifier happens only after the required number of bytes was
verified and that no classification step reads an index at or past the
view's length.  The code's loop guard only guarantees 5 bytes while
the CDATA opener test reads `contents[5]`..`contents[8]` (lines
264-265): with the input delivered as the single read `<u/><![CD`,
after the self-closing tag the view is exactly the 5 bytes `<![CD`
and the third iteration's classification reads index 5 of a view of
length 5. -/
theorem c1_classifier_reads_past_view :
    ubOf (run 3 (initSt c1Input)) = some (Ub.idx 5 5) := by decide

/-- C2 (counterexample): the final Metrics record is not invariant
under re-chunking of the same logical byte sequence.  For
`<unita></unita>`, the one-chunk delivery produces Metrics while the
one-byte-per-read delivery produces none (it errors), so the two
`metricsOf` results differ. -/
theorem c2_chunking_changes_metrics :
    metricsOf (run 30 (initSt c2OneChunk)) ≠
      metricsOf (run 30 (initSt c2ByteChunks)) := by decide

/-- C2 (amended): delivering `<unita></unita>` as one read is accepted
(exit 0), while delivering the identical bytes one byte per read makes
the start-tag handler, which retries the refill only once while the
tag's `>` is still several reads away, fail fatally with `parser
error: Incomplete element start tag` (exit 1). -/
theorem c2_chunking_dependent_outcome :
    isOk (run 30 (initSt c2OneChunk)) = true ∧
    errMsgOf (run 30 (initSt c2ByteChunks)) =
      some "parser error: Incomplete element start tag" := by decide

/-- C3: for every accepted run, the final line count equals the
newlines of the plain-text runs plus the newlines of the CDATA bodies
that the handlers consumed (trace events), while comment bodies and
tag or attribute syntax contribute nothing (no other event kind is
counted). -/
theorem c3_loc_is_text_plus_cdata_newlines (fuel : Nat)
    (input : List (List Char)) (st : St)
    (h : run fuel (initSt input) = Outcome.ok st) :
    st.loc = sumLocText st.trace + sumLocCData st.trace :=
  (run_inv fuel (initSt input) st h (inv_init input)).1

/-- C3 witness: the accepted run of `<unit>a\nb</unit>`. -/
theorem c3_loc_witness :
    (stOf (run 6 (initSt c3Input))).loc =
      sumLocText (stOf (run 6 (initSt c3Input))).trace +
        sumLocCData (stOf (run 6 (initSt c3Input))).trace :=
  c3_loc_is_text_plus_cdata_newlines 6 c3Input (stOf (run 6 (initSt c3Input)))
    (by decide)

/-- C4 (counterexample): the claim `files = max(unitCount - 1, 1)`
fails on the accepted input `<expr></expr>`: the code reports
`files = 0` (unitCount 0, not an archive) while the claimed formula
gives 1. -/
theorem c4_files_not_max_formula :
    isOk (run 6 (initSt c4Input)) = true ∧
    finalFiles (stOf (run 6 (initSt c4Input))) = 0 ∧
    max ((stOf (run 6 (initSt c4Input))).unitCount - 1) 1 = 1 := by decide

/-- C4 (amended): for every accepted run, the reported file count is
`unitCount - 1` when some `unit` start tag was scanned at depth 1
(archive), and `unitCount` otherwise; there is no flooring at 1. -/
theorem c4_files_archive_rule (fuel : Nat) (input : List (List Char)) (st : St)
    (h : run fuel (initSt input) = Outcome.ok st) :
    finalFiles st =
      (if archiveOf st.trace then countTag ("unit".data) st.trace - 1
       else countTag ("unit".data) st.trace) := by
  rcases run_inv fuel (initSt input) st h (inv_init input) with
    ⟨-, -, -, -, -, -, h7, -, h9⟩
  simp [finalFiles, h7, h9]

/-- C4 witness: the accepted archive `<unit><unit/><unit/></unit>`. -/
theorem c4_files_archive_rule_witness :
    finalFiles (stOf (run 8 (initSt c4ArchiveInput))) =
      (if archiveOf (stOf (run 8 (initSt c4ArchiveInput))).trace then
         countTag ("unit".data) (stOf (run 8 (initSt c4ArchiveInput))).trace - 1
       else countTag ("unit".data) (stOf (run 8 (initSt c4ArchiveInput))).trace) :=
  c4_files_archive_rule 8 c4ArchiveInput (stOf (run 8 (initSt c4ArchiveInput)))
    (by decide)

/-- C5 (counterexample): the loop does not stop when depth returns
to 0.  The accepted run of `<unit></unit><expr></expr>` counts the
`expr` element that lies entirely after the root closed, and the
accepted run of `<unit><![CDATA[x]]></unit>` ends with depth 1, not 0
(the CDATA handler consumed the `<` of `</unit>`, lines 281-282). -/
theorem c5_scan_continues_after_root :
    (isOk (run 8 (initSt c5TrailInput)) = true ∧
     (stOf (run 8 (initSt c5TrailInput))).exprCount = 1) ∧
    (isOk (run 8 (initSt c5CdataInput)) = true ∧
     (stOf (run 8 (initSt c5CdataInput))).depth = 1) := by decide

/-- C5 (amended): the loop leaves only through the refill branch, when
the view is empty (end of input) and no comment or CDATA is open;
depth plays no role in termination, trailing constructs are scanned,
and the final depth of an accepted run need not be 0. -/
theorem c5_break_only_at_empty_eof (st s : St) (h : step st = StepRes.brk s) :
    s.contents = [] ∧ s.inXMLComment = false ∧ s.inCDATA = false := by
  unfold step at h
  cases hc : classify st <;> rw [hc] at h <;> dsimp only at h
  case refillB =>
    unfold refillStep at h
    (repeat' (first | (split at h) | (dsimp only at h))) <;>
      first
        | exact StepRes.noConfusion h
        | (injection h with h; subst h; simp_all)
  case xmlnsB => exact absurd h (xmlnsStep_ne_brk st s)
  case attrB => exact absurd h (attrStep_ne_brk st s)
  case commentB => exact absurd h (commentStep_ne_brk st s)
  case cdataB => exact absurd h (cdataStep_ne_brk st s)
  case xmlDeclB => exact absurd h (xmlDeclStep_ne_brk st s)
  case piB => exact absurd h (piStep_ne_brk st s)
  case endTagB => exact absurd h (endTagStep_ne_brk st s)
  case startTagB => exact absurd h (startTagStep_ne_brk st s)
  case ws0B => exact absurd h (ws0Step_ne_brk st s)
  case entityB => exact absurd h (entityStep_ne_brk st s)
  case textB => exact absurd h (textStep_ne_brk st s)
  case oob => exact StepRes.noConfusion h

/-- C5 witness: the loop break taken at empty end of input. -/
theorem c5_break_only_at_empty_eof_witness :
    (initSt []).contents = [] ∧ (initSt []).inXMLComment = false ∧
      (initSt []).inCDATA = false :=
  c5_break_only_at_empty_eof (initSt []) (initSt []) (by decide)

/-- C6: the claim states that a non-whitespace byte left when depth
reaches 0 triggers a fatal `extra content at end of document` error.
No such check or message exists in the code: for `<unit/>xxxxx` the
scanner reaches the depth-0 whitespace-skipping branch (lines 545-547)
with `xxxxx` in view, removes `find_first_not_of` = 0 bytes, and loops
on the identical state forever. -/
theorem c6_trailing_content_loops_forever :
    run 2 (initSt c6Input) = Outcome.fuel c6Loop ∧
    step c6Loop = StepRes.next c6Loop ∧
    ∀ n : Nat, run n c6Loop = Outcome.fuel c6Loop := by
  refine ⟨by decide, by decide, ?_⟩
  intro n
  induction n with
  | zero => rfl
  | succ k ih =>
    have hs : step c6Loop = StepRes.next c6Loop := by decide
    simp only [run, hs]
    exact ih

/-- C7: the claim states that an unterminated comment fails with a
comment-termination error.  The comment guard (line 244) compares the
whole view against `<!==` and never matches, so `<!--` falls through
to the start-tag handler: for `<unit><!-- unterminated` the scanner
fails with exit code 1 but with the start-tag message `parser error:
Incomplete element start tag`, not a comment-termination error (the
`Unterminated XML comment` message is unreachable). -/
theorem c7_comment_misparsed_as_start_tag :
    errMsgOf (run 3 (initSt c7Input)) =
      some "parser error: Incomplete element start tag" := by decide

/-- C8: for every accepted run, the final document identifier equals
the value of the last attribute with local name `url` in document
order over all elements (the last `url` attribute event of the trace;
the empty initial identifier if there is none), because each later
`url` attribute unconditionally overwrites the field (lines 230-231). -/
theorem c8_url_last_wins (fuel : Nat) (input : List (List Char)) (st : St)
    (h : run fuel (initSt input) = Outcome.ok st) :
    st.url = urlOfTrace st.trace :=
  (run_inv fuel (initSt input) st h (inv_init input)).2.1

/-- C8 witness: `url="a"` on the root, `url="c"` on a nested element;
the accepted run reports `c`. -/
theorem c8_url_last_wins_witness :
    (stOf (run 10 (initSt c8Input))).url =
      urlOfTrace (stOf (run 10 (initSt c8Input))).trace :=
  c8_url_last_wins 10 c8Input (stOf (run 10 (initSt c8Input))) (by decide)

/-- C9: when fewer than 5 unconsumed bytes remain at the top of the
loop and the read returns 0 (end of input), `refillBuffer` sets the
view to empty (lines 81-84), the loop breaks, and the discarded bytes
change no field but the view: the run ends with every metric exactly
as it was. -/
theorem c9_eof_discards_short_tail (st : St)
    (h1 : st.contents.length < 5) (h2 : st.input = [])
    (h3 : st.inXMLComment = false) (h4 : st.inCDATA = false) :
    step st = StepRes.brk { st with contents := [] } ∧
    ∀ n : Nat, run (n + 1) st = Outcome.ok { st with contents := [] } := by
  have hc : classify st = Classified.refillB := by
    unfold classify
    rw [if_pos h1]
  have hstep : step st = StepRes.brk { st with contents := [] } := by
    unfold step
    rw [hc]
    unfold refillStep refill
    rw [h2]
    simp [h3, h4, St.mk.injEq, h2]
  refine ⟨hstep, ?_⟩
  intro n
  simp only [run, hstep]

/-- C9 witness: a state with three buffered bytes, nonzero metrics and
exhausted input; the step discards the bytes and breaks with the
metrics intact. -/
theorem c9_eof_discards_short_tail_witness :
    step c9St = StepRes.brk { c9St with contents := [] } :=
  (c9_eof_discards_short_tail c9St (by decide) rfl rfl rfl).1

/-- C10: the end-tag handler decrements depth unconditionally — any
successful end-tag step yields depth one less, with no hypothesis that
depth was positive and no comparison of tag names — and the input
`</aa></bb></cc>` consisting only of end tags is accepted (exit 0)
with final depth -3. -/
theorem c10_endtag_decrements_unconditionally :
    (∀ st s : St, endTagStep st = StepRes.next s → s.depth = st.depth - 1) ∧
    isOk (run 5 (initSt c10Input)) = true ∧
    (stOf (run 5 (initSt c10Input))).depth = -3 := by
  refine ⟨?_, by decide, by decide⟩
  intro st s h
  unfold endTagStep at h
  (repeat' (first | (split at h) | (dsimp only at h))) <;>
    first
      | exact StepRes.noConfusion h
      | (injection h with h; subst h; rfl)

/-- C10 witness: one end-tag step from a depth-0 state. -/
theorem c10_endtag_decrements_witness : c10Next.depth = c10St.depth - 1 :=
  c10_endtag_decrements_unconditionally.1 c10St c10Next (by decide)

end SrcFacts
